import Mathlib

/-!
# A verification model of SimplePRC-JS

Shallow embedding of the SimplePRC-JS client (`simple_rpc_client`, `APIResponse`,
`RPCNode`, `TimedCache`) and proofs about it.  Every definition is translated
from the TypeScript source; comments quote the line it embeds.  Machine-level
aspects (the WebSocket, timers, BSON/JSON byte strings) are modelled at the
granularity the source observes them: the socket by its `readyState` number,
time by a `Nat` parameter `now` (milliseconds, as `Date.now()`), and the two
wire codecs by the document (field map) they produce, since both JSON and BSON
round-trip through a field-name-keyed document.
-/

set_option autoImplicit false
set_option linter.unusedVariables false

namespace SimpleRPC

/-- A JavaScript value, as far as the `request : any` and `params : Map<string, any>`
fields of `APIResponse` carry one. -/
inductive JVal where
  | jnull
  | jstr (s : String)
  | jint (n : Int)
  | jbool (b : Bool)
deriving DecidableEq

/-- `APIResponse` (the envelope): six public fields with the defaults of the
TypeScript class (`UUID=''`, `status=200`, `message=''`, `key=''`, `request=''`,
`params=new Map()`).  `params` is modelled as an association list in insertion
order, which is how a JS `Map` iterates. -/
structure APIResponse where
  UUID : String := ""
  status : Int := 200
  message : String := ""
  key : String := ""
  request : JVal := JVal.jstr ""
  params : List (String × JVal) := []
deriving DecidableEq

/-- `new APIResponse(key, 408, 'Request timeout')` — the synthetic envelope the
`TimedCache` `onClear` callback builds; remaining constructor arguments take
their defaults. -/
def timeoutEnvelope (key : String) : APIResponse :=
  { UUID := key, status := 408, message := "Request timeout" }

/-!
## Wire documents and the two codecs

`toJsonStr` is `JSON.stringify(this)` and `toBsonBin` is `BSON.serialize(this)`;
`handleStr` is `Object.assign(new APIResponse(), JSON.parse(message))` and
`handleBin` is `Object.assign(new APIResponse(), BSON.deserialize(message))`.
Both wire forms are documents keyed by the field names `UUID`, `status`,
`message`, `key`, `request`, `params`; we embed the codecs at that document
level.  A field is `none` when it is absent from the document.
-/

/-- A decoded wire document: each envelope field either present or absent. -/
structure WireDoc where
  UUID : Option String := none
  status : Option Int := none
  message : Option String := none
  key : Option String := none
  request : Option JVal := none
  params : Option (List (String × JVal)) := none
deriving DecidableEq

/-- `JSON.stringify(this)`: every own enumerable field of the instance appears
in the output.  A JS `Map` has no own enumerable properties, so
`JSON.stringify` renders the `params` map as the empty object `{}` — its
entries are not serialized. -/
def APIResponse.toJsonDoc (a : APIResponse) : WireDoc :=
  { UUID := some a.UUID, status := some a.status, message := some a.message,
    key := some a.key, request := some a.request, params := some [] }

/-- `BSON.serialize(this)`: every field appears; the `bson` package serializes
a JS `Map` as an embedded document holding its entries (and `BSON.deserialize`
returns those entries as a plain object). -/
def APIResponse.toBsonDoc (a : APIResponse) : WireDoc :=
  { UUID := some a.UUID, status := some a.status, message := some a.message,
    key := some a.key, request := some a.request, params := some a.params }

/-- `Object.assign(new APIResponse(), data)`: each field present in the decoded
document overwrites the freshly constructed default; absent fields keep the
defaults of `new APIResponse()`. -/
def assignToDefault (d : WireDoc) : APIResponse :=
  { UUID := d.UUID.getD "", status := d.status.getD 200,
    message := d.message.getD "", key := d.key.getD "",
    request := d.request.getD (JVal.jstr ""), params := d.params.getD [] }

/-- `handleStr`: parse the JSON text into a document and assign it onto a
default envelope. -/
def handleStr (d : WireDoc) : APIResponse := assignToDefault d

/-- `handleBin`: deserialize the BSON bytes into a document and assign it onto
a default envelope. -/
def handleBin (d : WireDoc) : APIResponse := assignToDefault d

/-!
## `key.split('.')`

JavaScript `String.prototype.split` with separator `'.'`: `"".split('.')`
is `[""]`, `"a..b".split('.')` is `["a","","b"]`.  Defined by structural
recursion over the character list so that it evaluates by `rfl`/`decide`.
-/

/-- Splitting a character list at `'.'`; always returns a nonempty list of
segments, like `s.split('.')` in JS. -/
def splitDotAux : List Char → List String
  | [] => [""]
  | c :: cs =>
    if c = '.' then "" :: splitDotAux cs
    else
      match splitDotAux cs with
      | [] => [String.mk [c]]
      | s :: ss => String.mk (c :: s.data) :: ss

/-- `key.split('.')`. -/
def splitDot (s : String) : List String := splitDotAux s.data

/-!
## JS `Map` as an association list

A JS `Map` iterates in insertion order, `set` on a present key updates the
entry in place, `delete` removes it.  We represent a map as an association
list whose keys are distinct (every list the model builds has distinct keys);
`delAssoc` is written as a filter, which agrees with `Map.delete` on such
lists.
-/

/-- `map.get(k)` (first entry with key `k`). -/
def getAssoc {α : Type} : List (String × α) → String → Option α
  | [], _ => none
  | (k', v) :: rest, k => if k' = k then some v else getAssoc rest k

/-- `map.set(k, v)`: replace in place if present, else append. -/
def setAssoc {α : Type} : List (String × α) → String → α → List (String × α)
  | [], k, v => [(k, v)]
  | (k', v') :: rest, k, v =>
    if k' = k then (k, v) :: rest else (k', v') :: setAssoc rest k v

/-- `map.delete(k)`. -/
def delAssoc {α : Type} (m : List (String × α)) (k : String) : List (String × α) :=
  m.filter (fun e => e.1 ≠ k)

/-- `map.has(k)`. -/
def hasAssoc {α : Type} (m : List (String × α)) (k : String) : Bool :=
  (getAssoc m k).isSome

/-!
## The routing trie (`RPCNode`)

Handlers (`RPCServer` objects) are identified by a `Nat`; their behaviour is
supplied separately as a `ServerEnv` mapping each identifier to its
`handle : APIResponse → APIResponse | null` function.  This keeps the
dispatcher's bookkeeping (which handler is invoked, with what) observable.
-/

/-- Identifier of an `RPCServer` object. -/
abbrev ServerId := Nat

/-- The behaviour of every `RPCServer`: `handle(request)` returns an
`APIResponse` or `null` (`none`). -/
abbrev ServerEnv := ServerId → APIResponse → Option APIResponse

/-- `RPCNode`: a name, a `Map` of children, and an optional bound server. -/
inductive RPCNode where
  | mk (name : String) (children : List (String × RPCNode)) (rpcServer : Option ServerId)

/-- The node's `_name`. -/
def RPCNode.name : RPCNode → String
  | .mk n _ _ => n

/-- `getChildren()`. -/
def RPCNode.children : RPCNode → List (String × RPCNode)
  | .mk _ c _ => c

/-- The `rpcServer` getter. -/
def RPCNode.rpcServer : RPCNode → Option ServerId
  | .mk _ _ s => s

/-- `RPCNode.create(key)` = `new RPCNode(key, null)`: empty children map. -/
def RPCNode.create (key : String) : RPCNode := .mk key [] none

/-- The walk-and-create loop of `addNode` over the split segments: for each
segment, create the child if missing and descend; bind the server at the
final node. -/
def addNodeSeg (t : RPCNode) : List String → ServerId → RPCNode
  | [], server => .mk t.name t.children (some server)
  | k :: ks, server =>
    let child := (getAssoc t.children k).getD (RPCNode.create k)
    .mk t.name (setAssoc t.children k (addNodeSeg child ks server)) t.rpcServer

/-- `addNode(key, server)`: rejects an empty key (logged no-op); otherwise
splits on `'.'` and walks/creates.  (The `server === null` guard has no
counterpart: a Lean `ServerId` is always a value.) -/
def addNode (t : RPCNode) (key : String) (server : ServerId) : RPCNode :=
  if key = "" then t else addNodeSeg t (splitDot key) server

/-- The walk loop shared by `handle` (non-empty key) and `removeNode`:
descend through the children maps, `none` as soon as a segment is missing. -/
def findNodeSeg (t : RPCNode) : List String → Option RPCNode
  | [] => some t
  | k :: ks =>
    match getAssoc t.children k with
    | none => none
    | some c => findNodeSeg c ks

/-- The handler `handle` would resolve for the given segments: the final
node's `rpcServer`, `none` if the walk fails or no server is bound there. -/
def lookupHandlerSeg (t : RPCNode) (p : List String) : Option ServerId :=
  (findNodeSeg t p).bind RPCNode.rpcServer

/-- The handler `handle` would resolve for a dotted key. -/
def lookupHandler (t : RPCNode) (key : String) : Option ServerId :=
  lookupHandlerSeg t (splitDot key)

/-- The loop of `removeNode` over the split segments: walk, remembering the
parent (`lastNode`) and current segment (`nowKey`); return unchanged if a
segment is missing; after the loop, delete `nowKey` from the parent. -/
def removeNodeSeg (t : RPCNode) : List String → RPCNode
  | [] => t
  | [k] =>
    match getAssoc t.children k with
    | none => t
    | some _ => .mk t.name (delAssoc t.children k) t.rpcServer
  | k :: k' :: ks =>
    match getAssoc t.children k with
    | none => t
    | some c => .mk t.name (setAssoc t.children k (removeNodeSeg c (k' :: ks))) t.rpcServer

/-- `removeNode(key)`: rejects an empty key (logged no-op); otherwise splits
on `'.'` and walks. -/
def removeNode (t : RPCNode) (key : String) : RPCNode :=
  if key = "" then t else removeNodeSeg t (splitDot key)

/-!
## The WebSocket, the timed cache, and the client state

Only what the client reads of the socket is modelled: its `readyState` number
and the class constants.  Note that the source's `send` guard reads
`this.websocket_client.OPEN` — the class constant `1`, present on every
instance — not `readyState`, so the guard tests the truthiness of the
constant.
-/

/-- The WebSocket class constant `OPEN` (the `readyState` value 1). -/
def wsOPEN : Nat := 1

/-- The WebSocket class constant `CLOSED` (the `readyState` value 3). -/
def wsCLOSED : Nat := 3

/-- JavaScript truthiness of a number: any nonzero value is truthy. -/
def truthy (n : Nat) : Bool := n != 0

/-- A `TimedCache` entry: `{ value, expiry }` with `expiry` an absolute
millisecond timestamp. -/
structure CacheItem where
  value : ServerId
  expiry : Nat
deriving DecidableEq

/-- `ttl` passed to the cache in the client constructor: 120 000 ms. -/
def cacheTTL : Nat := 120000

/-- The state of a `simple_rpc_client`: the socket's `readyState`, the
client's own `status` flag (set on the `open` event), the routing trie root,
the `server_cache` entries, and the `bin_first` preference.  The root's
`rpcServer` is the registry adapter installed by the constructor; since
`addNode` rejects the empty key, it is never replaced, so the adapter is
embedded directly in `handle` below rather than stored in the trie. -/
structure ClientState where
  readyState : Nat
  status : Bool
  root : RPCNode
  cache : List (String × CacheItem)
  binFirst : Bool

/-- `close()`: `this.websocket_client.close()`.  The socket's `readyState`
moves to `CLOSED`; the client's `status` flag is not touched. -/
def close (st : ClientState) : ClientState :=
  { st with readyState := wsCLOSED }

/-- `send(message, useBin = this.bin_first)`: the list of frames actually
handed to the socket (envelope plus the binary flag that selects the codec).
The guard is the source's `if (this.websocket_client.OPEN)`, i.e. the
truthiness of the class constant `wsOPEN` — not a test of `readyState`. -/
def send (st : ClientState) (message : APIResponse) (useBin : Bool) :
    List (APIResponse × Bool) :=
  if truthy wsOPEN then [(message, useBin)] else []

/-- `TimedCache.set(key, value)`: expiry = `Date.now() + ttl`. -/
def cacheSet (c : List (String × CacheItem)) (k : String) (v : ServerId)
    (now : Nat) : List (String × CacheItem) :=
  setAssoc c k ⟨v, now + cacheTTL⟩

/-- `TimedCache.get(key)`: return the value if the entry exists and
`expiry > Date.now()`; otherwise delete the key and return `undefined`.
Returns the possibly-updated entry list alongside the result. -/
def cacheGet (c : List (String × CacheItem)) (k : String) (now : Nat) :
    List (String × CacheItem) × Option ServerId :=
  match getAssoc c k with
  | some item => if now < item.expiry then (c, some item.value) else (delAssoc c k, none)
  | none => (delAssoc c k, none)

/-- `addSendCallBack(uuid, server)`: `this.server_cache.set(uuid, server)`. -/
def addSendCallBack (st : ClientState) (uuid : String) (server : ServerId)
    (now : Nat) : ClientState :=
  { st with cache := cacheSet st.cache uuid server now }

/-!
## Dispatch

Observable effects are collected in an `Output`: the frames handed to the
socket, the handler invocations `(server, envelope)` in order, and the
`console.error` messages.
-/

/-- Observable effects of one dispatcher operation. -/
structure Output where
  sends : List (APIResponse × Bool) := []
  calls : List (ServerId × APIResponse) := []
  logs : List String := []
deriving DecidableEq

/-- Concatenation of effect records, preserving order. -/
def Output.append (a b : Output) : Output :=
  ⟨a.sends ++ b.sends, a.calls ++ b.calls, a.logs ++ b.logs⟩

/-- The adapter object the constructor installs as `this.root.rpcServer`:
look up `request.UUID` in `server_cache`; if absent return `null`; else
remove the entry, invoke the cached server, `that.send` any `APIResponse`
it returns, and return `null`.  Result: new state, effects, and the
adapter's own return value. -/
def rootServerHandle (env : ServerEnv) (now : Nat) (st : ClientState)
    (request : APIResponse) : ClientState × Output × Option APIResponse :=
  match cacheGet st.cache request.UUID now with
  | (c', none) => ({ st with cache := c' }, {}, none)
  | (c', some server) =>
    let st' : ClientState := { st with cache := delAssoc c' request.UUID }
    match env server request with
    | some re =>
      (st', { sends := send st' re st.binFirst, calls := [(server, request)] }, none)
    | none => (st', { calls := [(server, request)] }, none)

/-- `handle(data)`: empty `key` delegates to the root's server (the registry
adapter) and returns at once, ignoring its result; otherwise walk the trie
over `key.split('.')`, log `No such node` and stop if a segment is missing,
else invoke the node's optional server and `send` any `APIResponse` it
returns. -/
def handle (env : ServerEnv) (now : Nat) (st : ClientState) (data : APIResponse) :
    ClientState × Output :=
  if data.key = "" then
    let r := rootServerHandle env now st data
    (r.1, r.2.1)
  else
    match findNodeSeg st.root (splitDot data.key) with
    | none => (st, { logs := ["SimpleRPC: No such node " ++ data.key] })
    | some node =>
      match node.rpcServer with
      | none => (st, {})
      | some s =>
        match env s data with
        | some re => (st, { sends := send st re st.binFirst, calls := [(s, data)] })
        | none => (st, { calls := [(s, data)] })

/-- `sendAndCallBack(message, useBin, server)`: register the callback under
`message.UUID`, then `send`. -/
def sendAndCallBack (st : ClientState) (message : APIResponse) (useBin : Bool)
    (server : ServerId) (now : Nat) : ClientState × List (APIResponse × Bool) :=
  let st' := addSendCallBack st message.UUID server now
  (st', send st' message useBin)

/-!
## The periodic sweep

The constructor passes `TimedCache` an `onClear` callback that synthesizes
`new APIResponse(key, 408, 'Request timeout')`, invokes the cached server on
it, and `this.send`s any non-null result.  `clearExpired` iterates the entry
map in insertion order and, for each entry whose `expiry <= Date.now()`,
invokes `onClear(key, item.value)` and then deletes the entry.
-/

/-- The client constructor's `onClear` callback. -/
def onClear (env : ServerEnv) (st : ClientState) (key : String)
    (value : ServerId) : Output :=
  let request := timeoutEnvelope key
  match env value request with
  | some re => { sends := send st re st.binFirst, calls := [(value, request)] }
  | none => { calls := [(value, request)] }

/-- The loop of `TimedCache.clearExpired` over the entry list: returns the
surviving entries and the accumulated `onClear` effects, in iteration
order. -/
def sweepList (env : ServerEnv) (st : ClientState) (now : Nat) :
    List (String × CacheItem) → List (String × CacheItem) × Output
  | [] => ([], {})
  | (k, it) :: rest =>
    let r := sweepList env st now rest
    if it.expiry ≤ now then
      (r.1, Output.append (onClear env st k it.value) r.2)
    else ((k, it) :: r.1, r.2)

/-- `TimedCache.clearExpired()`, as triggered by the interval timer. -/
def clearExpired (env : ServerEnv) (now : Nat) (st : ClientState) :
    ClientState × Output :=
  let r := sweepList env st now st.cache
  ({ st with cache := r.1 }, r.2)

/-!
## The constructor's WebSocket URL

`new WebSocket(encodeURI(...))` with the template
`(ssl ? "ws" : "wss") + "://" + url + (token.length === 0 ? "?token=" + token : "")`.
`encodeURI` is the identity on the characters involved and is omitted.
-/

/-- The URL string the constructor passes to `new WebSocket`. -/
def buildUrl (ssl : Bool) (url : String) (token : String) : String :=
  (if ssl then "ws" else "wss") ++ "://" ++ url ++
    (if token.length = 0 then "?token=" ++ token else "")

/-!
## Association-list facts (JS `Map` semantics)
-/

theorem getAssoc_setAssoc_self {α : Type} (m : List (String × α)) (k : String)
    (v : α) : getAssoc (setAssoc m k v) k = some v := by
  induction m with
  | nil => simp [setAssoc, getAssoc]
  | cons e rest ih =>
    obtain ⟨k', v'⟩ := e
    by_cases h : k' = k <;> simp [setAssoc, getAssoc, h, ih]

theorem getAssoc_setAssoc_ne {α : Type} (m : List (String × α)) (k k' : String)
    (v : α) (h : k' ≠ k) : getAssoc (setAssoc m k v) k' = getAssoc m k' := by
  induction m with
  | nil => simp [setAssoc, getAssoc, Ne.symm h]
  | cons e rest ih =>
    obtain ⟨k₀, v₀⟩ := e
    by_cases h0 : k₀ = k
    · subst h0
      simp [setAssoc, getAssoc, Ne.symm h]
    · simp [setAssoc, getAssoc, h0, ih]

theorem setAssoc_self {α : Type} (m : List (String × α)) (k : String) (v : α)
    (h : getAssoc m k = some v) : setAssoc m k v = m := by
  induction m with
  | nil => simp [getAssoc] at h
  | cons e rest ih =>
    obtain ⟨k₀, v₀⟩ := e
    by_cases h0 : k₀ = k
    · subst h0
      simp [getAssoc] at h
      simp [setAssoc, h]
    · simp [getAssoc, h0] at h
      simp [setAssoc, h0, ih h]

theorem getAssoc_delAssoc_self {α : Type} (m : List (String × α)) (k : String) :
    getAssoc (delAssoc m k) k = none := by
  induction m with
  | nil => simp [delAssoc, getAssoc]
  | cons e rest ih =>
    obtain ⟨k₀, v₀⟩ := e
    by_cases h0 : k₀ = k
    · simpa [delAssoc, h0] using ih
    · simpa [delAssoc, getAssoc, h0] using ih

theorem delAssoc_of_getAssoc_none {α : Type} (m : List (String × α)) (k : String)
    (h : getAssoc m k = none) : delAssoc m k = m := by
  induction m with
  | nil => simp [delAssoc]
  | cons e rest ih =>
    obtain ⟨k₀, v₀⟩ := e
    by_cases h0 : k₀ = k
    · simp [getAssoc, h0] at h
    · simp [getAssoc, h0] at h
      simp [delAssoc, h0] at ih ⊢
      exact ih h

/-!
## Trie facts
-/

@[simp] theorem RPCNode.name_mk (n : String) (c : List (String × RPCNode))
    (s : Option ServerId) : (RPCNode.mk n c s).name = n := rfl

@[simp] theorem RPCNode.children_mk (n : String) (c : List (String × RPCNode))
    (s : Option ServerId) : (RPCNode.mk n c s).children = c := rfl

@[simp] theorem RPCNode.rpcServer_mk (n : String) (c : List (String × RPCNode))
    (s : Option ServerId) : (RPCNode.mk n c s).rpcServer = s := rfl

theorem findNodeSeg_cons_none {t : RPCNode} {k : String} {ks : List String}
    (h : getAssoc t.children k = none) : findNodeSeg t (k :: ks) = none := by
  simp [findNodeSeg, h]

theorem findNodeSeg_cons_some {t : RPCNode} {k : String} {ks : List String}
    {c : RPCNode} (h : getAssoc t.children k = some c) :
    findNodeSeg t (k :: ks) = findNodeSeg c ks := by
  simp [findNodeSeg, h]

theorem lookupHandlerSeg_nil (t : RPCNode) : lookupHandlerSeg t [] = t.rpcServer := rfl

theorem lookupHandlerSeg_cons_none {t : RPCNode} {k : String} {ks : List String}
    (h : getAssoc t.children k = none) : lookupHandlerSeg t (k :: ks) = none := by
  simp [lookupHandlerSeg, findNodeSeg_cons_none h]

theorem lookupHandlerSeg_cons_some {t : RPCNode} {k : String} {ks : List String}
    {c : RPCNode} (h : getAssoc t.children k = some c) :
    lookupHandlerSeg t (k :: ks) = lookupHandlerSeg c ks := by
  simp [lookupHandlerSeg, findNodeSeg_cons_some h]

theorem lookupHandlerSeg_create (k : String) (q : List String) :
    lookupHandlerSeg (RPCNode.create k) q = none := by
  cases q with
  | nil => rfl
  | cons k' qs => exact lookupHandlerSeg_cons_none (by simp [RPCNode.create, getAssoc])

theorem findNodeSeg_mk_cons_none {n : String} {ch : List (String × RPCNode)}
    {sv : Option ServerId} {k : String} {ks : List String}
    (h : getAssoc ch k = none) :
    findNodeSeg (RPCNode.mk n ch sv) (k :: ks) = none :=
  findNodeSeg_cons_none h

theorem findNodeSeg_mk_cons_some {n : String} {ch : List (String × RPCNode)}
    {sv : Option ServerId} {k : String} {ks : List String} {c : RPCNode}
    (h : getAssoc ch k = some c) :
    findNodeSeg (RPCNode.mk n ch sv) (k :: ks) = findNodeSeg c ks :=
  findNodeSeg_cons_some h

theorem lookupHandlerSeg_mk_cons_none {n : String} {ch : List (String × RPCNode)}
    {sv : Option ServerId} {k : String} {ks : List String}
    (h : getAssoc ch k = none) :
    lookupHandlerSeg (RPCNode.mk n ch sv) (k :: ks) = none :=
  lookupHandlerSeg_cons_none h

theorem lookupHandlerSeg_mk_cons_some {n : String} {ch : List (String × RPCNode)}
    {sv : Option ServerId} {k : String} {ks : List String} {c : RPCNode}
    (h : getAssoc ch k = some c) :
    lookupHandlerSeg (RPCNode.mk n ch sv) (k :: ks) = lookupHandlerSeg c ks :=
  lookupHandlerSeg_cons_some h

theorem addNodeSeg_cons (t : RPCNode) (k : String) (ks : List String)
    (s : ServerId) :
    addNodeSeg t (k :: ks) s = RPCNode.mk t.name
      (setAssoc t.children k
        (addNodeSeg ((getAssoc t.children k).getD (RPCNode.create k)) ks s))
      t.rpcServer := rfl

theorem lookupHandlerSeg_addNodeSeg_self (p : List String) :
    ∀ (t : RPCNode) (s : ServerId),
      lookupHandlerSeg (addNodeSeg t p s) p = some s := by
  induction p with
  | nil => intro t s; rfl
  | cons k ks ih =>
    intro t s
    rw [addNodeSeg_cons, lookupHandlerSeg_mk_cons_some (getAssoc_setAssoc_self _ _ _)]
    exact ih _ s

theorem lookupHandlerSeg_addNodeSeg_ne (p : List String) :
    ∀ (t : RPCNode) (s : ServerId) (q : List String), q ≠ p →
      lookupHandlerSeg (addNodeSeg t p s) q = lookupHandlerSeg t q := by
  induction p with
  | nil =>
    intro t s q hq
    cases q with
    | nil => exact absurd rfl hq
    | cons k' qs =>
      cases hg : getAssoc t.children k' with
      | none =>
        rw [show addNodeSeg t [] s = RPCNode.mk t.name t.children (some s) from rfl,
          lookupHandlerSeg_mk_cons_none hg, lookupHandlerSeg_cons_none hg]
      | some c =>
        rw [show addNodeSeg t [] s = RPCNode.mk t.name t.children (some s) from rfl,
          lookupHandlerSeg_mk_cons_some hg, lookupHandlerSeg_cons_some hg]
  | cons k ks ih =>
    intro t s q hq
    cases q with
    | nil => rw [addNodeSeg_cons]; rfl
    | cons k' qs =>
      by_cases hk : k' = k
      · subst hk
        have hqs : qs ≠ ks := fun hh => hq (by rw [hh])
        rw [addNodeSeg_cons,
          lookupHandlerSeg_mk_cons_some (getAssoc_setAssoc_self _ _ _),
          ih _ s qs hqs]
        cases hg : getAssoc t.children k' with
        | some c0 => rw [lookupHandlerSeg_cons_some hg]; rfl
        | none =>
          rw [lookupHandlerSeg_cons_none hg]
          exact lookupHandlerSeg_create _ qs
      · have hne : getAssoc (setAssoc t.children k
            (addNodeSeg ((getAssoc t.children k).getD (RPCNode.create k)) ks s)) k'
            = getAssoc t.children k' := getAssoc_setAssoc_ne _ _ _ _ hk
        cases hg : getAssoc t.children k' with
        | none =>
          rw [addNodeSeg_cons, lookupHandlerSeg_mk_cons_none (hne.trans hg),
            lookupHandlerSeg_cons_none hg]
        | some c0 =>
          rw [addNodeSeg_cons, lookupHandlerSeg_mk_cons_some (hne.trans hg),
            lookupHandlerSeg_cons_some hg]

theorem findNodeSeg_append (p : List String) :
    ∀ (t : RPCNode) (q : List String),
      findNodeSeg t (p ++ q) = (findNodeSeg t p).bind (fun n => findNodeSeg n q) := by
  induction p with
  | nil => intro t q; rfl
  | cons k ks ih =>
    intro t q
    cases hg : getAssoc t.children k with
    | none =>
      rw [show (k :: ks) ++ q = k :: (ks ++ q) from rfl,
        findNodeSeg_cons_none hg, findNodeSeg_cons_none hg]
      rfl
    | some c =>
      rw [show (k :: ks) ++ q = k :: (ks ++ q) from rfl,
        findNodeSeg_cons_some hg, findNodeSeg_cons_some hg, ih c q]

theorem removeNodeSeg_single_none {t : RPCNode} {k : String}
    (h : getAssoc t.children k = none) : removeNodeSeg t [k] = t := by
  simp [removeNodeSeg, h]

theorem removeNodeSeg_single_some {t : RPCNode} {k : String} {c : RPCNode}
    (h : getAssoc t.children k = some c) :
    removeNodeSeg t [k] = RPCNode.mk t.name (delAssoc t.children k) t.rpcServer := by
  simp [removeNodeSeg, h]

theorem removeNodeSeg_cons_none {t : RPCNode} {k k' : String} {ks : List String}
    (h : getAssoc t.children k = none) : removeNodeSeg t (k :: k' :: ks) = t := by
  simp [removeNodeSeg, h]

theorem removeNodeSeg_cons_some {t : RPCNode} {k k' : String} {ks : List String}
    {c : RPCNode} (h : getAssoc t.children k = some c) :
    removeNodeSeg t (k :: k' :: ks)
      = RPCNode.mk t.name (setAssoc t.children k (removeNodeSeg c (k' :: ks)))
          t.rpcServer := by
  simp [removeNodeSeg, h]

theorem findNodeSeg_removeNodeSeg_cons (ks : List String) :
    ∀ (k : String) (t : RPCNode),
      findNodeSeg (removeNodeSeg t (k :: ks)) (k :: ks) = none := by
  induction ks with
  | nil =>
    intro k t
    cases hg : getAssoc t.children k with
    | none => rw [removeNodeSeg_single_none hg, findNodeSeg_cons_none hg]
    | some c =>
      rw [removeNodeSeg_single_some hg]
      exact findNodeSeg_cons_none (by simpa using getAssoc_delAssoc_self t.children k)
  | cons k' ks' ih =>
    intro k t
    cases hg : getAssoc t.children k with
    | none => rw [removeNodeSeg_cons_none hg, findNodeSeg_cons_none hg]
    | some c =>
      rw [removeNodeSeg_cons_some hg,
        findNodeSeg_mk_cons_some (getAssoc_setAssoc_self _ _ _)]
      exact ih k' c

theorem removeNodeSeg_of_findNodeSeg_none (ks : List String) :
    ∀ (k : String) (t : RPCNode), findNodeSeg t (k :: ks) = none →
      removeNodeSeg t (k :: ks) = t := by
  induction ks with
  | nil =>
    intro k t h
    cases hg : getAssoc t.children k with
    | none => exact removeNodeSeg_single_none hg
    | some c => rw [findNodeSeg_cons_some hg] at h; simp [findNodeSeg] at h
  | cons k' ks' ih =>
    intro k t h
    cases hg : getAssoc t.children k with
    | none => exact removeNodeSeg_cons_none hg
    | some c =>
      rw [findNodeSeg_cons_some hg] at h
      rw [removeNodeSeg_cons_some hg, ih k' c h, setAssoc_self _ _ _ hg]
      cases t
      rfl

theorem splitDotAux_ne_nil (l : List Char) : splitDotAux l ≠ [] := by
  induction l with
  | nil => simp [splitDotAux]
  | cons c cs ih =>
    by_cases hc : c = '.'
    · simp [splitDotAux, hc]
    · cases hs : splitDotAux cs with
      | nil => exact absurd hs ih
      | cons s ss => simp [splitDotAux, hc, hs]

/-!
## Send, `onClear` and sweep facts
-/

/-- The source's guard `if (this.websocket_client.OPEN)` tests the truthiness
of the class constant `1`, so `send` always hands the frame to the socket. -/
theorem send_eq (st : ClientState) (m : APIResponse) (b : Bool) :
    send st m b = [(m, b)] := rfl

theorem onClear_calls (env : ServerEnv) (st : ClientState) (key : String)
    (value : ServerId) :
    (onClear env st key value).calls = [(value, timeoutEnvelope key)] := by
  cases h : env value (timeoutEnvelope key) <;> simp [onClear, h]

theorem onClear_sends_of_some (env : ServerEnv) (st : ClientState) (key : String)
    (value : ServerId) (r : APIResponse)
    (h : env value (timeoutEnvelope key) = some r) :
    (onClear env st key value).sends = [(r, st.binFirst)] := by
  simp [onClear, h, send_eq]

theorem sweepList_fst (env : ServerEnv) (st : ClientState) (now : Nat)
    (l : List (String × CacheItem)) :
    (sweepList env st now l).1 = l.filter (fun e => now < e.2.expiry) := by
  induction l with
  | nil => rfl
  | cons e rest ih =>
    obtain ⟨k, it⟩ := e
    by_cases h : it.expiry ≤ now
    · have h2 : ¬ now < it.expiry := Nat.not_lt.mpr h
      simp [sweepList, h, ih, h2]
    · have h2 : now < it.expiry := Nat.not_le.mp h
      simp [sweepList, h, ih, h2]

theorem sweepList_calls_mem (env : ServerEnv) (st : ClientState) (now : Nat)
    (l : List (String × CacheItem)) (K : String) (item : CacheItem)
    (hm : (K, item) ∈ l) (he : item.expiry ≤ now) :
    (item.value, timeoutEnvelope K) ∈ (sweepList env st now l).2.calls := by
  induction l with
  | nil => cases hm
  | cons e rest ih =>
    obtain ⟨k0, it0⟩ := e
    rcases List.mem_cons.mp hm with heq | hmem
    · have h1 : K = k0 := congrArg Prod.fst heq
      have h2 : item = it0 := congrArg Prod.snd heq
      subst h1
      subst h2
      simp [sweepList, he, Output.append, onClear_calls]
    · by_cases h0 : it0.expiry ≤ now
      · simp only [sweepList, if_pos h0, Output.append]
        exact List.mem_append_right _ (ih hmem)
      · simp only [sweepList, if_neg h0]
        exact ih hmem

theorem sweepList_sends_mem (env : ServerEnv) (st : ClientState) (now : Nat)
    (l : List (String × CacheItem)) (K : String) (item : CacheItem)
    (r : APIResponse) (hm : (K, item) ∈ l) (he : item.expiry ≤ now)
    (hr : env item.value (timeoutEnvelope K) = some r) :
    (r, st.binFirst) ∈ (sweepList env st now l).2.sends := by
  induction l with
  | nil => cases hm
  | cons e rest ih =>
    obtain ⟨k0, it0⟩ := e
    rcases List.mem_cons.mp hm with heq | hmem
    · have h1 : K = k0 := congrArg Prod.fst heq
      have h2 : item = it0 := congrArg Prod.snd heq
      subst h1
      subst h2
      simp [sweepList, he, Output.append, onClear_sends_of_some _ _ _ _ _ hr]
    · by_cases h0 : it0.expiry ≤ now
      · simp only [sweepList, if_pos h0, Output.append]
        exact List.mem_append_right _ (ih hmem)
      · simp only [sweepList, if_neg h0]
        exact ih hmem

/-!
## The claims
-/

/-- C1: the claim says that after `close()`, `send` transmits nothing.  In the
source, `send`'s guard is `if (this.websocket_client.OPEN)` — the class
constant `1`, always truthy — instead of a check of `readyState`, so after
`close()` (readyState `CLOSED`, not `OPEN`) the frame is still handed to the
socket.  The claim states the evident intent of the guard; the code is a
slip. -/
theorem c1_send_after_close_still_transmits (st : ClientState)
    (msg : APIResponse) (b : Bool) :
    (close st).readyState ≠ wsOPEN ∧ send (close st) msg b = [(msg, b)] :=
  ⟨by simp [close, wsCLOSED, wsOPEN], rfl⟩

/-- C2: after registering a handler under `msg.UUID` via `sendAndCallBack`,
dispatching an inbound envelope with empty `key` and the same `UUID` before
the TTL expires invokes that handler exactly once with that envelope and
removes the registry entry; dispatching the identical envelope again invokes
no handler, sends nothing, logs nothing, and leaves the state unchanged. -/
theorem c2_callback_invoked_once_then_removed (env : ServerEnv)
    (st0 st1 st2 : ClientState) (msg d : APIResponse) (ub : Bool)
    (server : ServerId) (now now' : Nat)
    (hk : d.key = "") (hU : d.UUID = msg.UUID) (httl : now' < now + cacheTTL)
    (hst1 : st1 = (sendAndCallBack st0 msg ub server now).1)
    (hst2 : st2 = (handle env now' st1 d).1) :
    (handle env now' st1 d).2.calls = [(server, d)] ∧
    getAssoc st2.cache msg.UUID = none ∧
    handle env now' st2 d = (st2, {}) := by
  have hcache1 : st1.cache = setAssoc st0.cache msg.UUID ⟨server, now + cacheTTL⟩ := by
    rw [hst1]
    rfl
  have hget : cacheGet st1.cache d.UUID now' = (st1.cache, some server) := by
    rw [hU, hcache1]
    simp [cacheGet, getAssoc_setAssoc_self, httl]
  have hhandle : handle env now' st1 d
      = ((rootServerHandle env now' st1 d).1, (rootServerHandle env now' st1 d).2.1) := by
    simp [handle, hk]
  have hroot : (rootServerHandle env now' st1 d).1
        = { st1 with cache := delAssoc st1.cache d.UUID } ∧
      (rootServerHandle env now' st1 d).2.1.calls = [(server, d)] := by
    cases henv : env server d with
    | none => exact ⟨by simp [rootServerHandle, hget, henv], by simp [rootServerHandle, hget, henv]⟩
    | some re => exact ⟨by simp [rootServerHandle, hget, henv], by simp [rootServerHandle, hget, henv]⟩
  have hst2' : st2 = { st1 with cache := delAssoc st1.cache d.UUID } := by
    rw [hst2, hhandle]
    exact hroot.1
  have hgone : getAssoc st2.cache msg.UUID = none := by
    rw [hst2', hU]
    exact getAssoc_delAssoc_self _ _
  refine ⟨by rw [hhandle]; exact hroot.2, hgone, ?_⟩
  have hgone' : getAssoc st2.cache d.UUID = none := by rw [hU]; exact hgone
  have hcg2 : cacheGet st2.cache d.UUID now' = (st2.cache, none) := by
    simp [cacheGet, hgone', delAssoc_of_getAssoc_none _ _ hgone']
  have hhandle2 : handle env now' st2 d
      = ((rootServerHandle env now' st2 d).1, (rootServerHandle env now' st2 d).2.1) := by
    simp [handle, hk]
  rw [hhandle2]
  simp [rootServerHandle, hcg2]

/-- C3: when the periodic sweep runs, every registry entry `(K, handler)`
whose expiry has passed has its handler invoked with the synthetic envelope
`new APIResponse(K, 408, 'Request timeout')`, the entry is deleted, and any
non-null envelope the handler returns is forwarded to `send`. -/
theorem c3_sweep_delivers_timeout (env : ServerEnv) (st : ClientState)
    (now : Nat) (K : String) (item : CacheItem)
    (hmem : (K, item) ∈ st.cache) (hexp : item.expiry ≤ now) :
    (item.value, timeoutEnvelope K) ∈ (clearExpired env now st).2.calls ∧
    (K, item) ∉ (clearExpired env now st).1.cache ∧
    (∀ r, env item.value (timeoutEnvelope K) = some r →
      (r, st.binFirst) ∈ (clearExpired env now st).2.sends) := by
  refine ⟨?_, ?_, ?_⟩
  · exact sweepList_calls_mem env st now st.cache K item hmem hexp
  · intro hmem2
    rw [show (clearExpired env now st).1.cache = (sweepList env st now st.cache).1
        from rfl, sweepList_fst] at hmem2
    have hkeep := List.of_mem_filter hmem2
    simp at hkeep
    omega
  · intro r hr
    exact sweepList_sends_mem env st now st.cache K item r hmem hexp hr

/-- C4 (counterexample): the round-trip claim fails for the text codec.
`JSON.stringify` serializes the `params` Map of this envelope (one entry
`"a" ↦ 1`) as the empty object, so decoding the result back does not restore
the `params` field. -/
theorem c4_counterexample :
    handleStr (APIResponse.toJsonDoc { params := [("a", JVal.jint 1)] }) ≠
      ({ params := [("a", JVal.jint 1)] } : APIResponse) := by
  decide

/-- C4 (amended): the binary codec round-trips every field; the text codec
round-trips `UUID`, `status`, `message`, `key` and `request` but always
decodes `params` as empty, because `JSON.stringify` serializes a `Map` as
`{}`; and decoding a document with all fields omitted yields the defaults
(`status = 200`, empty strings, empty `params`). -/
theorem c4_roundtrip_amended (a : APIResponse) :
    handleBin (APIResponse.toBsonDoc a) = a ∧
    handleStr (APIResponse.toJsonDoc a) = { a with params := [] } ∧
    handleStr {} = ⟨"", 200, "", "", JVal.jstr "", []⟩ ∧
    handleBin {} = ⟨"", 200, "", "", JVal.jstr "", []⟩ := by
  refine ⟨?_, ?_, rfl, rfl⟩ <;> cases a <;> rfl

/-- C5: `addNode` at `"a.b.c"` binds the handler at exactly that path —
looking it up resolves to the inserted handler; any other path (including
the ancestor `"a.b"` and the descendant `"a.b.c.d"`) is unaffected, and on a
fresh trie those two resolve to no handler. -/
theorem c5_addNode_binds_only_final (t : RPCNode) (s : ServerId) (q : String)
    (hq : splitDot q ≠ ["a", "b", "c"]) :
    lookupHandler (addNode t "a.b.c" s) "a.b.c" = some s ∧
    lookupHandler (addNode t "a.b.c" s) q = lookupHandler t q ∧
    lookupHandler (addNode (RPCNode.create "") "a.b.c" s) "a.b" = none ∧
    lookupHandler (addNode (RPCNode.create "") "a.b.c" s) "a.b.c.d" = none := by
  refine ⟨?_, ?_, rfl, rfl⟩
  · show lookupHandlerSeg (addNodeSeg t (splitDot "a.b.c") s) (splitDot "a.b.c")
      = some s
    exact lookupHandlerSeg_addNodeSeg_self _ t s
  · show lookupHandlerSeg (addNodeSeg t (splitDot "a.b.c") s) (splitDot q)
      = lookupHandlerSeg t (splitDot q)
    exact lookupHandlerSeg_addNodeSeg_ne _ t s _ hq

/-- C6: `removeNode "a.b"` detaches the `"a.b"` node together with its whole
subtree, so `"a.b.c"` (reachable before) is no longer found; and `removeNode`
of a path with a missing segment is a silent no-op that leaves the trie
unchanged. -/
theorem c6_remove_detaches_subtree (t t2 : RPCNode) (key : String)
    (h1 : (findNodeSeg t (splitDot "a.b.c")).isSome = true)
    (h2 : findNodeSeg t2 (splitDot key) = none) :
    findNodeSeg (removeNode t "a.b") (splitDot "a.b.c") = none ∧
    lookupHandler (removeNode t "a.b") "a.b.c" = none ∧
    removeNode t2 key = t2 := by
  have hkill : findNodeSeg (removeNode t "a.b") (splitDot "a.b") = none := by
    show findNodeSeg (removeNodeSeg t (splitDot "a.b")) (splitDot "a.b") = none
    exact findNodeSeg_removeNodeSeg_cons ["b"] "a" t
  have hmain : findNodeSeg (removeNode t "a.b") (splitDot "a.b.c") = none := by
    rw [show splitDot "a.b.c" = ["a", "b"] ++ ["c"] from rfl, findNodeSeg_append,
      show (["a", "b"] : List String) = splitDot "a.b" from rfl, hkill]
    rfl
  refine ⟨hmain, ?_, ?_⟩
  · show (findNodeSeg (removeNode t "a.b") (splitDot "a.b.c")).bind RPCNode.rpcServer
      = none
    rw [hmain]
    rfl
  · by_cases hk : key = ""
    · simp [removeNode, hk]
    · simp only [removeNode, if_neg hk]
      cases hsp : splitDot key with
      | nil => exact absurd hsp (splitDotAux_ne_nil _)
      | cons k ks =>
        rw [hsp] at h2
        exact removeNodeSeg_of_findNodeSeg_none ks k t2 h2

/-- C7: dispatching an envelope with `key = "x.y"` when node `"x"` exists but
has no child `"y"` invokes no handler, sends nothing, changes no state, and
only logs `SimpleRPC: No such node x.y`. -/
theorem c7_unroutable_key_only_logged (env : ServerEnv) (now : Nat)
    (st : ClientState) (d : APIResponse) (node : RPCNode)
    (hx : getAssoc st.root.children "x" = some node)
    (hy : getAssoc node.children "y" = none)
    (hk : d.key = "x.y") :
    handle env now st d = (st, { logs := ["SimpleRPC: No such node x.y"] }) := by
  have hne : d.key ≠ "" := by rw [hk]; decide
  have hfind : findNodeSeg st.root (splitDot d.key) = none := by
    rw [hk, show splitDot "x.y" = ["x", "y"] from rfl, findNodeSeg_cons_some hx]
    exact findNodeSeg_cons_none hy
  have hstep : handle env now st d
      = (st, { logs := ["SimpleRPC: No such node " ++ d.key] }) := by
    simp [handle, hne, hfind]
  rw [hstep, hk]
  rfl

/-- C9: dispatching an envelope whose non-empty `key` resolves to an existing
trie node with no bound server is a silent no-op: no handler call, no send,
no log, state unchanged. -/
theorem c9_node_without_handler_silent (env : ServerEnv) (now : Nat)
    (st : ClientState) (d : APIResponse) (node : RPCNode)
    (hk : d.key ≠ "")
    (hfind : findNodeSeg st.root (splitDot d.key) = some node)
    (hs : node.rpcServer = none) :
    handle env now st d = (st, {}) := by
  simp [handle, hk, hfind, hs]

/-- C8: the claim says `ssl = true` selects the secure scheme and a non-empty
token is appended as a query parameter.  The source's template is inverted on
both counts: `ssl ? "ws" : "wss"` picks the insecure scheme when `ssl` is
true, and `token.length === 0 ? "?token=" + token : ""` appends the (empty)
token only when no token was supplied.  The parameter names make the claim
the evident intent; the code is a slip. -/
theorem c8_url_scheme_and_token_inverted :
    buildUrl true "example.com" "abc" = "ws://example.com" ∧
    buildUrl false "example.com" "" = "wss://example.com?token=" :=
  ⟨rfl, rfl⟩

/-- C10: the registry adapter installed as the root's server always returns
`null` to `handle` (itself sending any reply the cached handler produced), so
for empty-key envelopes `handle` forwards exactly the adapter's own sends and
a reply's response is transmitted at most once. -/
theorem c10_root_adapter_returns_none (env : ServerEnv) (now : Nat)
    (st : ClientState) (d : APIResponse) :
    (rootServerHandle env now st d).2.2 = none ∧
    (handle env now st { d with key := "" }).2.sends
      = (rootServerHandle env now st { d with key := "" }).2.1.sends ∧
    (rootServerHandle env now st d).2.1.sends.length ≤ 1 := by
  have hB : (handle env now st { d with key := "" }).2.sends
      = (rootServerHandle env now st { d with key := "" }).2.1.sends := rfl
  rcases hg : cacheGet st.cache d.UUID now with ⟨c', v⟩
  cases v with
  | none => exact ⟨by simp [rootServerHandle, hg], hB, by simp [rootServerHandle, hg]⟩
  | some server =>
    cases henv : env server d with
    | none =>
      exact ⟨by simp [rootServerHandle, hg, henv], hB,
        by simp [rootServerHandle, hg, henv]⟩
    | some re =>
      exact ⟨by simp [rootServerHandle, hg, henv], hB,
        by simp [rootServerHandle, hg, henv, send_eq]⟩

/-!
## Witnesses at concrete inputs
-/

/-- Witness for C2: register handler 7 under `"X"` at time 0, dispatch the
empty-key envelope with `UUID = "X"` at time 1. -/
theorem c2_witness :
    (handle (fun _ _ => none) 1
        ((sendAndCallBack ⟨1, true, RPCNode.create "", [], false⟩
          { UUID := "X" } false 7 0).1) { UUID := "X" }).2.calls
      = [(7, { UUID := "X" })] ∧
    getAssoc ((handle (fun _ _ => none) 1
        ((sendAndCallBack ⟨1, true, RPCNode.create "", [], false⟩
          { UUID := "X" } false 7 0).1) { UUID := "X" }).1).cache "X" = none ∧
    handle (fun _ _ => none) 1
        ((handle (fun _ _ => none) 1
          ((sendAndCallBack ⟨1, true, RPCNode.create "", [], false⟩
            { UUID := "X" } false 7 0).1) { UUID := "X" }).1) { UUID := "X" }
      = ((handle (fun _ _ => none) 1
          ((sendAndCallBack ⟨1, true, RPCNode.create "", [], false⟩
            { UUID := "X" } false 7 0).1) { UUID := "X" }).1, {}) :=
  c2_callback_invoked_once_then_removed (fun _ _ => none)
    ⟨1, true, RPCNode.create "", [], false⟩ _ _ { UUID := "X" } { UUID := "X" }
    false 7 0 1 rfl rfl (by decide) rfl rfl

/-- Witness for C3: one entry `("X", handler 7, expiry 100)` swept at time
100. -/
theorem c3_witness :
    ((7 : ServerId), timeoutEnvelope "X") ∈
      (clearExpired (fun _ _ => none) 100
        ⟨1, true, RPCNode.create "", [("X", ⟨7, 100⟩)], false⟩).2.calls ∧
    ("X", (⟨7, 100⟩ : CacheItem)) ∉
      (clearExpired (fun _ _ => none) 100
        ⟨1, true, RPCNode.create "", [("X", ⟨7, 100⟩)], false⟩).1.cache ∧
    (∀ r, (fun _ _ => none : ServerEnv) 7 (timeoutEnvelope "X") = some r →
      (r, false) ∈ (clearExpired (fun _ _ => none) 100
        ⟨1, true, RPCNode.create "", [("X", ⟨7, 100⟩)], false⟩).2.sends) :=
  c3_sweep_delivers_timeout (fun _ _ => none)
    ⟨1, true, RPCNode.create "", [("X", ⟨7, 100⟩)], false⟩ 100 "X" ⟨7, 100⟩
    (by decide) (by decide)

/-- Witness for C5: insert at `"a.b.c"` into a fresh trie; `"x"` as the
untouched other path. -/
theorem c5_witness :
    lookupHandler (addNode (RPCNode.create "") "a.b.c" 0) "a.b.c" = some 0 ∧
    lookupHandler (addNode (RPCNode.create "") "a.b.c" 0) "x"
      = lookupHandler (RPCNode.create "") "x" ∧
    lookupHandler (addNode (RPCNode.create "") "a.b.c" 0) "a.b" = none ∧
    lookupHandler (addNode (RPCNode.create "") "a.b.c" 0) "a.b.c.d" = none :=
  c5_addNode_binds_only_final (RPCNode.create "") 0 "x" (by decide)

/-- Witness for C6: a trie with `"a.b.c"` bound; `"zz"` as the missing
path. -/
theorem c6_witness :
    findNodeSeg (removeNode (addNode (RPCNode.create "") "a.b.c" 3) "a.b")
      (splitDot "a.b.c") = none ∧
    lookupHandler (removeNode (addNode (RPCNode.create "") "a.b.c" 3) "a.b")
      "a.b.c" = none ∧
    removeNode (RPCNode.create "") "zz" = RPCNode.create "" :=
  c6_remove_detaches_subtree (addNode (RPCNode.create "") "a.b.c" 3)
    (RPCNode.create "") "zz" rfl rfl

/-- Witness for C7: a trie with node `"x"` (no child `"y"`), envelope keyed
`"x.y"`. -/
theorem c7_witness :
    handle (fun _ _ => none) 0
        ⟨1, true, addNode (RPCNode.create "") "x" 5, [], false⟩ { key := "x.y" }
      = (⟨1, true, addNode (RPCNode.create "") "x" 5, [], false⟩,
          { logs := ["SimpleRPC: No such node x.y"] }) :=
  c7_unroutable_key_only_logged (fun _ _ => none) 0
    ⟨1, true, addNode (RPCNode.create "") "x" 5, [], false⟩ { key := "x.y" }
    (RPCNode.mk "x" [] (some 5)) rfl rfl rfl

/-- Witness for C9: node `"x"` exists (as an interior node of `"x.y"`) but
has no bound server. -/
theorem c9_witness :
    handle (fun _ _ => none) 0
        ⟨1, true, addNode (RPCNode.create "") "x.y" 7, [], false⟩ { key := "x" }
      = (⟨1, true, addNode (RPCNode.create "") "x.y" 7, [], false⟩, {}) :=
  c9_node_without_handler_silent (fun _ _ => none) 0
    ⟨1, true, addNode (RPCNode.create "") "x.y" 7, [], false⟩ { key := "x" }
    (RPCNode.mk "x" [("y", RPCNode.mk "y" [] (some 7))] none)
    (by decide) rfl rfl

end SimpleRPC
